import Mathlib

/-!
Shallow embedding of the video-chat client component (src/src/App.js) and of
the WebRTC connection API surface it calls, together with theorems settling
the specification's claims about the negotiation / session-lifecycle logic.

Modelling conventions:
* React `useState` values and `useRef` cells become fields of `AppState`.
* The underlying `RTCPeerConnection` is modelled by `PeerConn`, with
  `addIceCandidate` / `setRemoteDescription` following the WebRTC API
  semantics the code relies on (`addIceCandidate` rejects while no remote
  description is set; `setRemoteDescription` of an answer requires a prior
  local offer).
* Outbound socket emissions, track releases and scheduled timers are
  reified as a `List Effect` returned next to the new state.
* An event handler that can end in an uncaught rejection returns a
  `SignalResult` whose `exn` field records the escaped error; mutations
  performed before the throwing `await` are kept in the returned state,
  as they are in the JavaScript.
* Opaque browser-generated values (SDP payloads, the socket id, the clock)
  are fixed constants or explicit parameters.
-/

namespace VideoChat

/-- A local media track (opaque, identified by a number). -/
abbrev Track := Nat

/-- The kind of a session description. -/
inductive SdpKind where
  | offer
  | answer
deriving DecidableEq, Repr

/-- A session description (offer or answer) with an opaque payload. -/
structure Desc where
  kind : SdpKind
  payload : Nat
deriving DecidableEq, Repr

/-- A network-path (ICE) candidate; `wellFormed` models whether the
underlying connection accepts it once a remote description exists. -/
structure Candidate where
  id : Nat
  wellFormed : Bool
deriving DecidableEq, Repr

/-- The underlying point-to-point connection (`RTCPeerConnection`):
local/remote descriptions, the candidates successfully applied to it,
and the local tracks attached at creation. -/
structure PeerConn where
  localDesc : Option Desc
  remoteDesc : Option Desc
  applied : List Candidate
  tracks : List Track
deriving DecidableEq, Repr

/-- `RTCPeerConnection.addIceCandidate`, per the WebRTC API the code calls:
rejects with `InvalidStateError` while no remote description is set, rejects
a malformed candidate, and otherwise records the candidate as applied. -/
def addIceCandidate (pc : PeerConn) (c : Candidate) : Except String PeerConn :=
  if pc.remoteDesc = none then .error "InvalidStateError"
  else if c.wellFormed = false then .error "OperationError"
  else .ok { pc with applied := pc.applied ++ [c] }

/-- `RTCPeerConnection.setRemoteDescription`, per the WebRTC API: a remote
offer is accepted in every signaling state except have-local-offer (a local
offer set while no remote description exists — glare), so in particular in
the initial stable state, in have-remote-offer, and in the stable
post-negotiation state (renegotiation); a remote answer is accepted only in
have-local-offer; anything else rejects with `InvalidStateError`. -/
def setRemoteDescription (pc : PeerConn) (d : Desc) : Except String PeerConn :=
  match d.kind with
  | .offer =>
      if pc.localDesc.map Desc.kind = some .offer ∧ pc.remoteDesc = none then
        .error "InvalidStateError"
      else .ok { pc with remoteDesc := some d }
  | .answer =>
      if pc.localDesc.map Desc.kind = some .offer ∧ pc.remoteDesc = none then
        .ok { pc with remoteDesc := some d }
      else .error "InvalidStateError"

/-- The (opaque) offer generated by `createOffer`. -/
def theOffer : Desc := ⟨.offer, 0⟩

/-- The (opaque) answer generated by `createAnswer`. -/
def theAnswer : Desc := ⟨.answer, 1⟩

/-- JavaScript whitespace recognized by `String.prototype.trim` (the ASCII
part of the WhiteSpace/LineTerminator sets). -/
def jsWhitespace (c : Char) : Bool :=
  c = ' ' || c = '\t' || c = '\n' || c = '\r' || c = '\x0b' || c = '\x0c'

/-- JavaScript `String.prototype.trim`: strip whitespace from both ends. -/
def jsTrim (s : String) : String :=
  ⟨((s.data.dropWhile jsWhitespace).reverse.dropWhile jsWhitespace).reverse⟩

/-- A chat message as stored in the `messages` state
(`\x7b from, text, createdAt \x7d` in the source). -/
structure ChatMsg where
  «from» : String
  text : String
  createdAt : String
deriving DecidableEq, Repr

/-- Action carried by a scheduled timer (`setTimeout`). -/
inductive TimerAction where
  | findPartnerTimer
deriving DecidableEq, Repr

/-- Observable side effects of the handlers: socket emissions, track
releases, scheduled timers. -/
inductive Effect where
  | emitSignalSdp (d : Desc) (roomId : String)
  | emitFindPartner
  | emitSendMessage (text roomId : String)
  | emitLeaveRoom (roomId : Option String)
  | stopTrack (t : Track)
  | setTimeout (delayMs : Nat) (action : TimerAction)
deriving DecidableEq, Repr

/-- The component state: `useState` values (`status`, `roomId`, `messages`,
`text`), the refs `peerRef` and `localStreamRef`, and the console-error log. -/
structure AppState where
  status : String
  roomId : Option String
  messages : List ChatMsg
  text : String
  peer : Option PeerConn
  localStream : Option (List Track)
  log : List String
deriving DecidableEq, Repr

/-- Initial component state. -/
def initialState : AppState :=
  { status := "Not connected", roomId := none, messages := [], text := "",
    peer := none, localStream := none, log := [] }

/-- `createPeerConnection`: a fresh connection with the current local
stream's tracks attached (no descriptions, no applied candidates). -/
def createPeerConnection (s : AppState) : PeerConn :=
  { localDesc := none, remoteDesc := none, applied := [],
    tracks := s.localStream.getD [] }

/-- The initiator's offer step inlined in the `partner_found` handler:
`createOffer` / `setLocalDescription(offer)` / emit the offer tagged with
the room id. -/
def startOffer (pc : PeerConn) (rid : String) : PeerConn × List Effect :=
  ({ pc with localDesc := some theOffer }, [.emitSignalSdp theOffer rid])

/-- The `partner_found` handler: records the room, resets the transcript,
installs a fresh peer connection, and (when initiator) runs the offer step. -/
def onPartnerFound (rid : String) (initiator : Bool) (s : AppState) :
    AppState × List Effect :=
  let s1 := { s with roomId := some rid, status := "Partner found 🎉",
                     messages := [] }
  let pc := createPeerConnection s1
  if initiator then
    let (pc2, eff) := startOffer pc rid
    ({ s1 with peer := some pc2 }, eff)
  else
    ({ s1 with peer := some pc }, [])

/-- An inbound signaling message: optional description, optional candidate,
and the room id it is scoped to. -/
structure SignalMsg where
  sdp : Option Desc
  candidate : Option Candidate
  roomId : String
deriving DecidableEq, Repr

/-- Result of a handler that may end in an uncaught rejection: the state
after all mutations performed before the failure, the emitted effects, and
the escaped error if any. -/
structure SignalResult where
  state : AppState
  effects : List Effect
  exn : Option String
deriving DecidableEq, Repr

/-- The `signal` handler. Offer: create a peer connection if none, set the
remote description, create and set an answer, emit it tagged with the
message's room id. Answer: set the remote description on the current peer
(a null peer or a rejecting `setRemoteDescription` escapes uncaught).
Candidate: `addIceCandidate` inside try/catch — any failure (including a
null peer) is logged and the candidate discarded. -/
def onSignal (msg : SignalMsg) (s : AppState) : SignalResult :=
  match msg.sdp with
  | some d =>
      match d.kind with
      | .offer =>
          let pc0 := s.peer.getD (createPeerConnection s)
          let sA := { s with peer := some pc0 }
          match setRemoteDescription pc0 d with
          | .error e => ⟨sA, [], some e⟩
          | .ok pc1 =>
              let pc2 := { pc1 with localDesc := some theAnswer }
              ⟨{ sA with peer := some pc2 },
               [.emitSignalSdp theAnswer msg.roomId], none⟩
      | .answer =>
          match s.peer with
          | none => ⟨s, [], some "TypeError"⟩
          | some pc =>
              match setRemoteDescription pc d with
              | .error e => ⟨s, [], some e⟩
              | .ok pc1 => ⟨{ s with peer := some pc1 }, [], none⟩
  | none =>
      match msg.candidate with
      | some c =>
          match s.peer with
          | none => ⟨{ s with log := s.log ++ ["ICE add error"] }, [], none⟩
          | some pc =>
              match addIceCandidate pc c with
              | .ok pc1 => ⟨{ s with peer := some pc1 }, [], none⟩
              | .error _ =>
                  ⟨{ s with log := s.log ++ ["ICE add error"] }, [], none⟩
      | none => ⟨s, [], none⟩

/-- The `receive_message` handler: append to the transcript. -/
def onReceiveMessage (m : ChatMsg) (s : AppState) : AppState :=
  { s with messages := s.messages ++ [m] }

/-- `cleanup`: clear the room id, close and drop the peer connection
(close is wrapped in try/catch and reports nothing), detach video elements,
stop and drop the local stream's tracks. -/
def cleanup (s : AppState) : AppState × List Effect :=
  let s1 := { s with roomId := none, peer := none }
  match s.localStream with
  | some ts => ({ s1 with localStream := none }, ts.map Effect.stopTrack)
  | none => (s1, [])

/-- The `partner_left` handler: status, `cleanup`, then
`setTimeout(findPartner, 1500)`. -/
def onPartnerLeft (s : AppState) : AppState × List Effect :=
  let (s2, eff) := cleanup { s with status := "Partner left 😢" }
  (s2, eff ++ [.setTimeout 1500 .findPartnerTimer])

/-- `findPartner`: set the searching status, clear the transcript, then ask
for local media; `media` is the acquisition outcome (`some stream` on
success, `none` when access is denied). On success the stream is stored and
`find_partner` is emitted; on failure the status reports the denial and
nothing is emitted. -/
def findPartner (media : Option (List Track)) (s : AppState) :
    AppState × List Effect :=
  let s1 := { s with status := "Searching for partner…", messages := [] }
  match media with
  | some stream => ({ s1 with localStream := some stream }, [.emitFindPartner])
  | none => ({ s1 with status := "Media access denied." }, [])

/-- What a fired timer runs: the 1500 ms timer scheduled by `partner_left`
invokes `findPartner`. -/
def runTimer (a : TimerAction) (media : Option (List Track)) (s : AppState) :
    AppState × List Effect :=
  match a with
  | .findPartnerTimer => findPartner media s

/-- `sendMessage`: no-op when the trimmed text is empty or no room is set;
otherwise emit `send_message` with the trimmed text, append the message
locally authored by the local socket id, and clear the input. -/
def sendMessage (selfId now : String) (s : AppState) : AppState × List Effect :=
  match s.roomId with
  | none => (s, [])
  | some rid =>
      if jsTrim s.text = "" then (s, [])
      else
        ({ s with
            messages := s.messages ++ [⟨selfId, jsTrim s.text, now⟩],
            text := "" },
         [.emitSendMessage (jsTrim s.text) rid])

/-- `endChat`: emit `leave_room` with the current room id, set the ended
status, and run `cleanup`. No timer is scheduled. -/
def endChat (s : AppState) : AppState × List Effect :=
  let (s1, eff) := cleanup { s with status := "Chat ended ❌" }
  (s1, .emitLeaveRoom s.roomId :: eff)

/-- A discrete event driving the component (inbound socket events, timer
firings and user actions), dispatched one at a time. -/
inductive Event where
  | partnerFound (rid : String) (initiator : Bool)
  | signal (msg : SignalMsg)
  | receiveMessage (m : ChatMsg)
  | partnerLeft
  | userFindPartner (media : Option (List Track))
  | userSend (selfId now : String)
  | userEnd
deriving DecidableEq, Repr

/-- One dispatch step (uncaught handler rejections leave the state reached
before the failure, as in the JavaScript event loop). -/
def stepEv (s : AppState) (e : Event) : AppState × List Effect :=
  match e with
  | .partnerFound rid initiator => onPartnerFound rid initiator s
  | .signal msg => ((onSignal msg s).state, (onSignal msg s).effects)
  | .receiveMessage m => (onReceiveMessage m s, [])
  | .partnerLeft => onPartnerLeft s
  | .userFindPartner media => findPartner media s
  | .userSend selfId now => sendMessage selfId now s
  | .userEnd => endChat s

/-- Run a sequence of events from a state. -/
def run (s : AppState) : List Event → AppState
  | [] => s
  | e :: es => run (stepEv s e).1 es

/-- The candidates carried by the `signal` events of a trace (the remote
candidates received). -/
def receivedCandidates (es : List Event) : List Candidate :=
  es.filterMap fun e =>
    match e with
    | .signal m => if m.sdp.isNone then m.candidate else none
    | _ => none

/-- The candidates applied to the current peer connection. -/
def appliedCandidates (s : AppState) : List Candidate :=
  (s.peer.map PeerConn.applied).getD []

/-- Is an effect a scheduled timer? -/
def Effect.isSetTimeout : Effect → Bool
  | .setTimeout _ _ => true
  | _ => false

/-- A state with a freshly created peer connection (no descriptions set). -/
def freshPeerState : AppState :=
  { initialState with peer := some (createPeerConnection initialState) }

/-- The state of an initiator right after `partner_found` (local offer set,
no remote description). -/
def offeredState : AppState := (onPartnerFound "r" true initialState).1

/-- An active initiator session on room `r1`: offer sent, remote answer
applied. -/
def activeSession : AppState :=
  run initialState
    [.partnerFound "r1" true, .signal ⟨some ⟨.answer, 7⟩, none, "r1"⟩]

/-- Trace for room `r4`: offer started, two candidates arrive before the
remote answer, then the answer. -/
def answeredTrace : List Event :=
  [.partnerFound "r4" true,
   .signal ⟨none, some ⟨2, true⟩, "r4"⟩,
   .signal ⟨none, some ⟨3, true⟩, "r4"⟩,
   .signal ⟨some ⟨.answer, 7⟩, none, "r4"⟩]

/-- Final state of `answeredTrace`. -/
def answeredState : AppState := run initialState answeredTrace

/-- An engine on which the offer step already ran once. -/
def oncePc : PeerConn := (startOffer (createPeerConnection initialState) "r1").1

/-- A state with whitespace-only input text and no room. -/
def sendNoRoomState : AppState := { initialState with text := "  " }

/-- A state with a room and padded input text. -/
def sendReadyState : AppState :=
  { initialState with roomId := some "r", text := " hi " }

/-- Trace for room `rc1`: offer started, one candidate arrives before the
remote answer, then the answer. -/
def c1Trace : List Event :=
  [.partnerFound "rc1" true,
   .signal ⟨none, some ⟨1, true⟩, "rc1"⟩,
   .signal ⟨some ⟨.answer, 5⟩, none, "rc1"⟩]

/-- Trace for C9: a session on `r9`, one received message, then an explicit
user end. -/
def c9Trace : List Event :=
  [.partnerFound "r9" false, .receiveMessage ⟨"peer", "hi", "t0"⟩, .userEnd]

/-- Invariant: the current peer connection has no applied candidate while
its remote description is unset. -/
def AppliedInv (s : AppState) : Prop :=
  ∀ pc, s.peer = some pc → pc.remoteDesc = none → pc.applied = []

/-- If `setRemoteDescription` succeeds, the result's remote description is
the given one. -/
theorem setRemoteDescription_ok_remote (pc pc1 : PeerConn) (d : Desc)
    (h : setRemoteDescription pc d = .ok pc1) : pc1.remoteDesc = some d := by
  rcases d with ⟨k, p⟩
  cases k <;> simp only [setRemoteDescription] at h <;> split at h <;>
    simp_all <;> subst h <;> rfl

/-- If `addIceCandidate` succeeds, the remote description was already set
and is unchanged. -/
theorem addIceCandidate_ok_remote (pc pc1 : PeerConn) (c : Candidate)
    (h : addIceCandidate pc c = .ok pc1) :
    pc.remoteDesc ≠ none ∧ pc1.remoteDesc = pc.remoteDesc := by
  cases hr : pc.remoteDesc with
  | none => simp [addIceCandidate, hr] at h
  | some d =>
      refine ⟨by simp [hr], ?_⟩
      simp only [addIceCandidate, hr] at h
      rw [if_neg (by simp)] at h
      split at h
      · exact Except.noConfusion h
      · injection h with h
        subst h
        rfl

/-- C6: Closing is idempotent. `cleanup` after `cleanup` returns exactly the
state of a single `cleanup` and performs no further effect (in particular no
second release of any track); the first call stops exactly the local
stream's tracks, once each. `cleanup` is a total function, so no call raises
an error. -/
theorem c6_close_idempotent (s : AppState) :
    (cleanup (cleanup s).1).1 = (cleanup s).1 ∧
    (cleanup (cleanup s).1).2 = [] ∧
    (cleanup s).2 = (s.localStream.getD []).map Effect.stopTrack := by
  cases h : s.localStream <;> simp [cleanup, h]

/-- C7: When local media acquisition fails, `findPartner` leaves `roomId`,
the peer connection and the local stream unchanged (so a state that was
`Idle` — no room, no session — stays so), reports the denial in the status,
and emits nothing to the relay (in particular no `find_partner`). -/
theorem c7_media_denied_idle (s : AppState) :
    (findPartner none s).1.roomId = s.roomId ∧
    (findPartner none s).1.peer = s.peer ∧
    (findPartner none s).1.localStream = s.localStream ∧
    (findPartner none s).1.status = "Media access denied." ∧
    (findPartner none s).2 = [] := by
  simp [findPartner]

/-- C10: `sendMessage` is a no-op (same state, no emission) when the
trimmed text is empty or no room is assigned; otherwise it emits exactly one
`send_message` with the trimmed text, appends the trimmed message authored
by the local socket id, and clears the input. -/
theorem c10_send_message (selfId now : String) (s : AppState) :
    ((jsTrim s.text = "" ∨ s.roomId = none) →
      sendMessage selfId now s = (s, [])) ∧
    (∀ rid, s.roomId = some rid → jsTrim s.text ≠ "" →
      sendMessage selfId now s =
        ({ s with
            messages := s.messages ++ [⟨selfId, jsTrim s.text, now⟩],
            text := "" },
         [.emitSendMessage (jsTrim s.text) rid])) := by
  constructor
  · rintro (h | h)
    · cases hr : s.roomId <;> simp [sendMessage, hr, h]
    · simp [sendMessage, h]
  · intro rid hr ht
    simp [sendMessage, hr, ht]

/-- Witness for C10 at concrete states: whitespace-only text with no room is
a strict no-op; padded text " hi " in room `r` emits the trimmed "hi" and
appends it locally. -/
theorem c10_witness :
    sendMessage "me" "t0" sendNoRoomState = (sendNoRoomState, []) ∧
    sendMessage "me" "t0" sendReadyState =
      ({ sendReadyState with
          messages := [⟨"me", "hi", "t0"⟩], text := "" },
       [.emitSendMessage "hi" "r"]) := by
  constructor
  · exact (c10_send_message "me" "t0" sendNoRoomState).1 (Or.inr rfl)
  · have h := (c10_send_message "me" "t0" sendReadyState).2 "r" rfl (by decide)
    rw [h]
    decide

/-- Track releases are never timers. -/
theorem filter_isSetTimeout_stopTracks (ts : List Track) :
    (ts.map Effect.stopTrack).filter Effect.isSetTimeout = [] := by
  induction ts with
  | nil => rfl
  | cons t ts ih => simp [Effect.isSetTimeout, ih]

/-- C5: `partner_left` tears the session down to the closed state (no room,
no peer, no local stream) and schedules exactly one timer — 1500 ms, firing
`findPartner` — per departure; `endChat` (explicit user end) and every other
operation schedule no timer; firing the scheduled timer enters matchmaking
(searching status, `find_partner` emitted) when media is granted. -/
theorem c5_auto_rematch (s : AppState) (stream : List Track) :
    (onPartnerLeft s).1.roomId = none ∧
    (onPartnerLeft s).1.peer = none ∧
    (onPartnerLeft s).1.localStream = none ∧
    ((onPartnerLeft s).2.filter Effect.isSetTimeout) =
      [.setTimeout 1500 .findPartnerTimer] ∧
    ((endChat s).2.filter Effect.isSetTimeout) = [] ∧
    (∀ rid initiator,
      ((onPartnerFound rid initiator s).2.filter Effect.isSetTimeout) = []) ∧
    (∀ msg, ((onSignal msg s).effects.filter Effect.isSetTimeout) = []) ∧
    (∀ media, ((findPartner media s).2.filter Effect.isSetTimeout) = []) ∧
    (∀ selfId now,
      ((sendMessage selfId now s).2.filter Effect.isSetTimeout) = []) ∧
    (runTimer .findPartnerTimer (some stream) (onPartnerLeft s).1).1.status =
      "Searching for partner…" ∧
    (runTimer .findPartnerTimer (some stream) (onPartnerLeft s).1).2 =
      [.emitFindPartner] := by
  refine ⟨?_, ?_, ?_, ?_, ?_, ?_, ?_, ?_, ?_, ?_, ?_⟩
  · cases hls : s.localStream <;> simp [onPartnerLeft, cleanup, hls]
  · cases hls : s.localStream <;> simp [onPartnerLeft, cleanup, hls]
  · cases hls : s.localStream <;> simp [onPartnerLeft, cleanup, hls]
  · cases hls : s.localStream <;>
      simp [onPartnerLeft, cleanup, hls, Effect.isSetTimeout,
        filter_isSetTimeout_stopTracks]
  · cases hls : s.localStream <;>
      simp [endChat, cleanup, hls, Effect.isSetTimeout,
        filter_isSetTimeout_stopTracks]
  · intro rid initiator
    cases initiator <;>
      simp [onPartnerFound, startOffer, Effect.isSetTimeout]
  · rintro ⟨sdp, cand, rid⟩
    rcases sdp with _ | ⟨k, p⟩
    · rcases cand with _ | c
      · rfl
      · rcases hp : s.peer with _ | pc
        · simp [onSignal, hp]
        · cases ha : addIceCandidate pc c <;> simp [onSignal, hp, ha]
    · cases k
      · cases hsr : setRemoteDescription (s.peer.getD (createPeerConnection s))
            ⟨.offer, p⟩ <;>
          simp [onSignal, hsr, Effect.isSetTimeout]
      · rcases hp : s.peer with _ | pc
        · simp [onSignal, hp]
        · cases hsr : setRemoteDescription pc ⟨.answer, p⟩ <;>
            simp [onSignal, hp, hsr]
  · intro media
    cases media <;> simp [findPartner, Effect.isSetTimeout]
  · intro selfId now
    rcases hr : s.roomId with _ | rid
    · simp [sendMessage, hr]
    · by_cases ht : jsTrim s.text = "" <;>
        simp [sendMessage, hr, ht, Effect.isSetTimeout]
  · simp [runTimer, findPartner]
  · simp [runTimer, findPartner]

/-- C2 (amended): the `signal` handler ignores the message's `roomId`
entirely — the resulting state and any escaped exception are identical for
any two room ids; only the room tag on an emitted answer differs. In
particular a message whose `roomId` does not match the active session is
processed exactly like a matching one, not discarded. -/
theorem c2_amended_roomid_ignored (sdp : Option Desc) (cand : Option Candidate)
    (r r' : String) (s : AppState) :
    (onSignal ⟨sdp, cand, r⟩ s).state = (onSignal ⟨sdp, cand, r'⟩ s).state ∧
    (onSignal ⟨sdp, cand, r⟩ s).exn = (onSignal ⟨sdp, cand, r'⟩ s).exn := by
  rcases sdp with _ | ⟨k, p⟩
  · exact ⟨rfl, rfl⟩
  · cases k
    · cases hsr : setRemoteDescription (s.peer.getD (createPeerConnection s))
          ⟨.offer, p⟩ <;>
        constructor <;> simp [onSignal, hsr]
    · exact ⟨rfl, rfl⟩

/-- C2 counterexample: with session `r1` active, a candidate tagged with the
foreign room `r2` is still applied (a state change), and an offer tagged
`r2` is accepted as a renegotiation (another state change) with an answer
emitted to the relay tagged with the foreign room (an outbound
transmission) — mismatched messages are not no-ops. -/
theorem c2_counterexample :
    activeSession.roomId = some "r1" ∧
    (onSignal ⟨none, some ⟨9, true⟩, "r2"⟩ activeSession).state ≠
      activeSession ∧
    (onSignal ⟨some ⟨.offer, 3⟩, none, "r2"⟩ activeSession).state ≠
      activeSession ∧
    (onSignal ⟨some ⟨.offer, 3⟩, none, "r2"⟩ activeSession).effects =
      [.emitSignalSdp theAnswer "r2"] := by
  decide

/-- C3 (amended): the offer step has no `AlreadyNegotiating` guard — on any
engine it unconditionally sets the local description and emits the offer;
the reason it still runs at most once per engine instance is that every
`partner_found` installs a fresh connection (local and remote descriptions
empty, nothing applied) and, for the initiator, runs the offer step exactly
once on it, emitting exactly one offer. -/
theorem c3_amended_offer_unguarded (s : AppState) (rid : String)
    (pc : PeerConn) :
    startOffer pc rid =
      ({ pc with localDesc := some theOffer }, [.emitSignalSdp theOffer rid]) ∧
    (onPartnerFound rid true s).1.peer =
      some { localDesc := some theOffer, remoteDesc := none, applied := [],
             tracks := s.localStream.getD [] } ∧
    (onPartnerFound rid true s).2 = [.emitSignalSdp theOffer rid] := by
  refine ⟨rfl, ?_, ?_⟩ <;>
    simp [onPartnerFound, startOffer, createPeerConnection]

/-- C3 counterexample: a second offer step on the same engine does not fail
with `AlreadyNegotiating` — it completes and transmits a second offer (the
engine state is unchanged only because the regenerated offer is the same). -/
theorem c3_counterexample :
    (startOffer oncePc "r1").2 = [.emitSignalSdp theOffer "r1"] ∧
    (startOffer oncePc "r1").1 = oncePc := by
  decide

/-- C8: a failed candidate application — including the null-engine case —
is caught inside the handler: no exception escapes, nothing is emitted, the
failure is logged and the candidate discarded, and every other component of
the state (room, peer, messages, stream, status, input) is unchanged. -/
theorem c8_bad_candidate_nonfatal (s : AppState) (c : Candidate) (rid : String)
    (h : s.peer = none ∨
      ∃ pc, s.peer = some pc ∧ ∃ e, addIceCandidate pc c = .error e) :
    onSignal ⟨none, some c, rid⟩ s =
      ⟨{ s with log := s.log ++ ["ICE add error"] }, [], none⟩ := by
  rcases h with h | ⟨pc, hpc, e, he⟩
  · simp [onSignal, h]
  · simp [onSignal, hpc, he]

/-- Witness for C8: a well-formed candidate arriving while the fresh peer
connection has no remote description fails to apply; the handler logs it and
changes nothing else. -/
theorem c8_witness :
    onSignal ⟨none, some ⟨6, true⟩, "w8"⟩ freshPeerState =
      ⟨{ freshPeerState with log := freshPeerState.log ++ ["ICE add error"] },
       [], none⟩ :=
  c8_bad_candidate_nonfatal freshPeerState ⟨6, true⟩ "w8"
    (Or.inr ⟨createPeerConnection initialState, rfl, "InvalidStateError", rfl⟩)

/-- C9 counterexample: after the explicit end the session is over
(`roomId` cleared) yet the transcript still holds the message — it is not
cleared when the session ends. -/
theorem c9_counterexample :
    (run initialState c9Trace).roomId = none ∧
    (run initialState c9Trace).messages = [⟨"peer", "hi", "t0"⟩] := by
  decide

/-- C9 (amended): the transcript is append-only — `receive_message` appends
in arrival order, `sendMessage` appends or leaves it unchanged, the `signal`
handler never touches it — and it is cleared when a new session starts
(`partner_found`) or a new search begins (`findPartner`, including the
automatic one 1.5 s after a departure), but not at session end itself:
`endChat` and the immediate `partner_left` teardown leave it unchanged. -/
theorem c9_amended_transcript (s : AppState) (m : ChatMsg)
    (selfId now : String) (media : Option (List Track)) (rid : String)
    (initiator : Bool) (msg : SignalMsg) :
    onReceiveMessage m s = { s with messages := s.messages ++ [m] } ∧
    ((sendMessage selfId now s).1.messages = s.messages ∨
      (sendMessage selfId now s).1.messages =
        s.messages ++ [⟨selfId, jsTrim s.text, now⟩]) ∧
    (onSignal msg s).state.messages = s.messages ∧
    (endChat s).1.messages = s.messages ∧
    (onPartnerLeft s).1.messages = s.messages ∧
    (findPartner media s).1.messages = [] ∧
    (onPartnerFound rid initiator s).1.messages = [] := by
  refine ⟨rfl, ?_, ?_, ?_, ?_, ?_, ?_⟩
  · rcases hr : s.roomId with _ | rid'
    · left
      simp [sendMessage, hr]
    · by_cases ht : jsTrim s.text = ""
      · left
        simp [sendMessage, hr, ht]
      · right
        simp [sendMessage, hr, ht]
  · rcases msg with ⟨sdp, cand, rid'⟩
    rcases sdp with _ | ⟨k, p⟩
    · rcases cand with _ | c
      · rfl
      · rcases hp : s.peer with _ | pc
        · simp [onSignal, hp]
        · cases ha : addIceCandidate pc c <;> simp [onSignal, hp, ha]
    · cases k
      · cases hsr : setRemoteDescription (s.peer.getD (createPeerConnection s))
            ⟨.offer, p⟩ <;>
          simp [onSignal, hsr]
      · rcases hp : s.peer with _ | pc
        · simp [onSignal, hp]
        · cases hsr : setRemoteDescription pc ⟨.answer, p⟩ <;>
            simp [onSignal, hp, hsr]
  · cases hls : s.localStream <;> simp [endChat, cleanup, hls]
  · cases hls : s.localStream <;> simp [onPartnerLeft, cleanup, hls]
  · cases media <;> simp [findPartner]
  · cases initiator <;> simp [onPartnerFound, startOffer]

/-- Every event dispatch preserves `AppliedInv`. -/
theorem appliedInv_step (s : AppState) (e : Event) (h : AppliedInv s) :
    AppliedInv (stepEv s e).1 := by
  cases e with
  | partnerFound rid initiator =>
      intro pc hp hrd
      cases initiator <;>
        simp [stepEv, onPartnerFound, startOffer, createPeerConnection] at hp <;>
        simp [← hp]
  | signal msg =>
      rcases msg with ⟨sdp, cand, rid⟩
      rcases sdp with _ | ⟨k, p⟩
      · rcases cand with _ | c
        · exact h
        · intro pc hp hrd
          rcases hsp : s.peer with _ | pc0
          · simp [stepEv, onSignal, hsp] at hp
          · cases ha : addIceCandidate pc0 c with
            | error e =>
                simp [stepEv, onSignal, hsp, ha] at hp
                subst hp
                exact h pc0 hsp hrd
            | ok pc1 =>
                simp [stepEv, onSignal, hsp, ha] at hp
                subst hp
                obtain ⟨hne, heq⟩ := addIceCandidate_ok_remote pc0 pc1 c ha
                rw [heq] at hrd
                exact absurd hrd hne
      · cases k
        · intro pc hp hrd
          cases hsr : setRemoteDescription (s.peer.getD (createPeerConnection s))
              ⟨.offer, p⟩ with
          | error e =>
              simp [stepEv, onSignal, hsr] at hp
              rcases hsp : s.peer with _ | pc0
              · rw [hsp] at hp
                simp at hp
                simp [← hp, createPeerConnection]
              · rw [hsp] at hp
                simp at hp
                subst hp
                exact h pc0 hsp hrd
          | ok pc1 =>
              simp [stepEv, onSignal, hsr] at hp
              subst hp
              have hr1 := setRemoteDescription_ok_remote _ pc1 _ hsr
              simp [hr1] at hrd
        · intro pc hp hrd
          rcases hsp : s.peer with _ | pc0
          · simp [stepEv, onSignal, hsp] at hp
          · cases hsr : setRemoteDescription pc0 ⟨.answer, p⟩ with
            | error e =>
                simp [stepEv, onSignal, hsp, hsr] at hp
                subst hp
                exact h pc0 hsp hrd
            | ok pc1 =>
                simp [stepEv, onSignal, hsp, hsr] at hp
                subst hp
                have hr1 := setRemoteDescription_ok_remote _ pc1 _ hsr
                rw [hr1] at hrd
                exact Option.noConfusion hrd
  | receiveMessage m => exact h
  | partnerLeft =>
      intro pc hp hrd
      cases hls : s.localStream <;>
        simp [stepEv, onPartnerLeft, cleanup, hls] at hp
  | userFindPartner media =>
      intro pc hp hrd
      cases media <;> simp [stepEv, findPartner] at hp <;> exact h pc hp hrd
  | userSend selfId now =>
      intro pc hp hrd
      rcases hr : s.roomId with _ | rid
      · simp [stepEv, sendMessage, hr] at hp
        exact h pc hp hrd
      · by_cases ht : jsTrim s.text = "" <;>
          simp [stepEv, sendMessage, hr, ht] at hp <;>
          exact h pc hp hrd
  | userEnd =>
      intro pc hp hrd
      cases hls : s.localStream <;>
        simp [stepEv, endChat, cleanup, hls] at hp

/-- `AppliedInv` holds along any run. -/
theorem appliedInv_run (es : List Event) (s : AppState) (h : AppliedInv s) :
    AppliedInv (run s es) := by
  induction es generalizing s with
  | nil => exact h
  | cons e es ih => exact ih _ (appliedInv_step s e h)

/-- C1 counterexample: on `c1Trace` the candidate is received before any
remote description exists; the claim requires it to be enqueued and applied
immediately after the remote description is applied, with none lost — but
after the answer sets the remote description, the applied-candidate list is
empty: the candidate was discarded, not enqueued. -/
theorem c1_counterexample :
    receivedCandidates c1Trace = [⟨1, true⟩] ∧
    (run initialState c1Trace).peer.map PeerConn.remoteDesc =
      some (some ⟨.answer, 5⟩) ∧
    appliedCandidates (run initialState c1Trace) = [] := by
  decide

/-- C1 (amended): a remote candidate received while the current connection
has no remote description is not enqueued — the code keeps no queue — but
attempted immediately; the underlying connection rejects it, the failure is
logged, the candidate is discarded, and nothing else of the state changes
(so such candidates are lost, not applied after the remote description
arrives). What does hold of the original claim is its safety half: along any
event trace from the initial state, no candidate is ever recorded as applied
while the connection's remote description is unset. -/
theorem c1_amended_candidates (s : AppState) (pc : PeerConn) (c : Candidate)
    (rid : String) (hpc : s.peer = some pc) (hrd : pc.remoteDesc = none) :
    onSignal ⟨none, some c, rid⟩ s =
      ⟨{ s with log := s.log ++ ["ICE add error"] }, [], none⟩ ∧
    (∀ es pc', (run initialState es).peer = some pc' →
      pc'.remoteDesc = none → pc'.applied = []) := by
  constructor
  · simp [onSignal, hpc, addIceCandidate, hrd]
  · intro es pc' hp' hrd'
    refine appliedInv_run es initialState ?_ pc' hp' hrd'
    intro pc0 hp0 _
    simp [initialState] at hp0

/-- C1 witness: a candidate arriving at a fresh connection (no remote
description) is logged and dropped; and after the concrete one-event trace
installing a fresh engine, its applied-candidate list is empty. -/
theorem c1_witness :
    onSignal ⟨none, some ⟨5, true⟩, "w1"⟩ freshPeerState =
      ⟨{ freshPeerState with log := freshPeerState.log ++ ["ICE add error"] },
       [], none⟩ ∧
    appliedCandidates (run initialState [.partnerFound "w1" false]) = [] := by
  have h := c1_amended_candidates freshPeerState
    (createPeerConnection initialState) ⟨5, true⟩ "w1" rfl rfl
  refine ⟨h.1, ?_⟩
  have hp : (run initialState [.partnerFound "w1" false]).peer =
      some ⟨none, none, [], []⟩ := by decide
  have ha := h.2 [.partnerFound "w1" false] ⟨none, none, [], []⟩ hp rfl
  simp [appliedCandidates, hp, ha]

/-- C4 counterexample: on `answeredTrace` two candidates are received before
the remote answer; after the answer is applied (remote description set) the
connection's applied-candidate list is still empty — nothing was queued, so
nothing is drained. -/
theorem c4_counterexample :
    answeredState.peer.map PeerConn.remoteDesc = some (some ⟨.answer, 7⟩) ∧
    appliedCandidates answeredState = [] ∧
    receivedCandidates answeredTrace = [⟨2, true⟩, ⟨3, true⟩] := by
  decide

/-- When the answer-state precondition fails, `setRemoteDescription` of an
answer rejects with `InvalidStateError`. -/
theorem setRemoteDescription_answer_fail (pc : PeerConn) (p : Nat)
    (hcond : ¬(pc.localDesc.map Desc.kind = some .offer ∧
      pc.remoteDesc = none)) :
    setRemoteDescription pc ⟨.answer, p⟩ = .error "InvalidStateError" := by
  simp only [setRemoteDescription]
  rw [if_neg hcond]

/-- C4 (amended): applying a remote answer with no engine fails with an
uncaught null-reference error; with an engine holding a prior local offer
and no remote description it sets the remote description (and drains
nothing — no pending queue exists); with an engine in any other description
state the underlying connection rejects it and the `InvalidStateError`
escapes uncaught — there is no handled `UnexpectedAnswer` protocol error. -/
theorem c4_amended_answer (s : AppState) (pc : PeerConn) (d : Desc)
    (rid : String) (hd : d.kind = .answer) :
    (s.peer = none →
      onSignal ⟨some d, none, rid⟩ s = ⟨s, [], some "TypeError"⟩) ∧
    (s.peer = some pc → pc.localDesc.map Desc.kind = some .offer →
      pc.remoteDesc = none →
      onSignal ⟨some d, none, rid⟩ s =
        ⟨{ s with peer := some { pc with remoteDesc := some d } }, [], none⟩) ∧
    (s.peer = some pc →
      ¬(pc.localDesc.map Desc.kind = some .offer ∧ pc.remoteDesc = none) →
      onSignal ⟨some d, none, rid⟩ s = ⟨s, [], some "InvalidStateError"⟩) := by
  rcases d with ⟨k, p⟩
  cases k with
  | offer => exact absurd hd (by simp)
  | answer =>
      refine ⟨?_, ?_, ?_⟩
      · intro hp
        simp [onSignal, hp]
      · intro hp hl hr
        simp [onSignal, hp, setRemoteDescription, hl, hr]
      · intro hp hcond
        simp [onSignal, hp, setRemoteDescription_answer_fail pc p hcond]

/-- C4 witness: the three cases at concrete states — no engine (uncaught
`TypeError`), prior local offer (remote description set), fresh engine with
no local offer (uncaught `InvalidStateError`). -/
theorem c4_witness :
    onSignal ⟨some ⟨.answer, 7⟩, none, "w4"⟩ initialState =
      ⟨initialState, [], some "TypeError"⟩ ∧
    onSignal ⟨some ⟨.answer, 7⟩, none, "w4"⟩ offeredState =
      ⟨{ offeredState with
          peer := some { localDesc := some theOffer,
                         remoteDesc := some ⟨.answer, 7⟩,
                         applied := [], tracks := [] } }, [], none⟩ ∧
    onSignal ⟨some ⟨.answer, 7⟩, none, "w4"⟩ freshPeerState =
      ⟨freshPeerState, [], some "InvalidStateError"⟩ := by
  refine ⟨?_, ?_, ?_⟩
  · exact (c4_amended_answer initialState (createPeerConnection initialState)
      ⟨.answer, 7⟩ "w4" rfl).1 rfl
  · exact (c4_amended_answer offeredState ⟨some theOffer, none, [], []⟩
      ⟨.answer, 7⟩ "w4" rfl).2.1 rfl rfl rfl
  · exact (c4_amended_answer freshPeerState (createPeerConnection initialState)
      ⟨.answer, 7⟩ "w4" rfl).2.2 rfl
      (fun hcon => Option.noConfusion hcon.1)

end VideoChat
